import Mathlib

/-
Verification of the rPPG Focus Monitor signal pipeline
(src/r_ppg_focus_monitor_web_on_device.jsx).

Shallow embedding conventions:
* JS numbers are modelled as exact rationals (ℚ) wherever the source only
  performs field arithmetic and comparisons; values that pass through
  transcendental functions (the IIR coefficients via cos/sin, standard
  deviations and RMSSD via sqrt) live in ℝ.
* `Math.round` is modelled as `⌊x + 1/2⌋` (round half toward +∞), and
  `Math.floor` as `Int.floor`.
* JS `NaN` results (computeRMSSD with fewer than 3 IBIs) are modelled as
  `Option.none`; the `isFinite` guard at the call site becomes a match.
* Mutation of the shared `stRef.current` record is modelled by explicit
  state passing over the structure `St`.
-/

namespace RPPG

/-- `Math.round` on a rational: round half toward positive infinity. -/
def jsRound (q : ℚ) : ℤ := ⌊q + 1/2⌋

/-- `Math.round` on a real: round half toward positive infinity. -/
noncomputable def jsRoundR (x : ℝ) : ℤ := ⌊x + 1/2⌋

/-- One second-order IIR filter stage: coefficients (already divided by a0)
plus the two-sample input and output histories, as in the closure created by
`biquad` in the source. -/
structure Biquad where
  b0 : ℝ
  b1 : ℝ
  b2 : ℝ
  a1 : ℝ
  a2 : ℝ
  x1 : ℝ
  x2 : ℝ
  y1 : ℝ
  y2 : ℝ

/-- The `step` method of the biquad closure: compute the output and shift the
histories. -/
def Biquad.step (f : Biquad) (x : ℝ) : ℝ × Biquad :=
  let y := f.b0 * x + f.b1 * f.x1 + f.b2 * f.x2 - f.a1 * f.y1 - f.a2 * f.y2
  (y, { f with x2 := f.x1, x1 := x, y2 := f.y1, y1 := y })

/-- The `type` argument of `biquad` ('lp' | 'hp'). -/
inductive FilterType where
  | lp : FilterType
  | hp : FilterType

/-- `biquad(fs, fc, Q, type)`: RBJ cookbook coefficients; the returned closure
starts with zeroed histories (`let x1=0,x2=0,y1=0,y2=0`). -/
noncomputable def biquad (fs fc Q : ℝ) (type : FilterType) : Biquad :=
  let w0 := 2 * Real.pi * fc / fs
  let cosw0 := Real.cos w0
  let sinw0 := Real.sin w0
  let alpha := sinw0 / (2 * Q)
  let a0 := 1 + alpha
  match type with
  | FilterType.lp =>
      { b0 := ((1 - cosw0) / 2) / a0, b1 := (1 - cosw0) / a0, b2 := ((1 - cosw0) / 2) / a0,
        a1 := (-2 * cosw0) / a0, a2 := (1 - alpha) / a0,
        x1 := 0, x2 := 0, y1 := 0, y2 := 0 }
  | FilterType.hp =>
      { b0 := ((1 + cosw0) / 2) / a0, b1 := (-(1 + cosw0)) / a0, b2 := ((1 + cosw0) / 2) / a0,
        a1 := (-2 * cosw0) / a0, a2 := (1 - alpha) / a0,
        x1 := 0, x2 := 0, y1 := 0, y2 := 0 }

/-- `makeBiquadLP(fs, fc)` with `Q = Math.SQRT1_2`. -/
noncomputable def makeBiquadLP (fs fc : ℚ) : Biquad :=
  biquad fs fc (Real.sqrt 2)⁻¹ FilterType.lp

/-- `makeBiquadHP(fs, fc)` with `Q = Math.SQRT1_2`. -/
noncomputable def makeBiquadHP (fs fc : ℚ) : Biquad :=
  biquad fs fc (Real.sqrt 2)⁻¹ FilterType.hp

/-- The mutable pipeline state `stRef.current`, together with the React
state fields written by the tick (`hrBpm`, `snr`, `rmssd`, `focusScore`)
and the user baselines read by it. -/
structure St where
  lastTs : ℚ
  fpsEMA : ℚ
  t : List ℚ
  gRaw : List ℚ
  bvp : List ℝ
  maxBufSec : ℚ
  hp : Biquad
  lp : Biquad
  lastPeakT : ℚ
  ibis : List ℚ
  hrBpm : Option ℤ
  snr : Option ℝ
  rmssd : Option ℤ
  focusScore : Option ℤ
  baselineHR : Option ℚ
  baselineRMSSD : Option ℚ

/-- `movingAverageTail(arr, win)`: mean of the last `min(win, arr.length)`
entries, or 0 on the empty list. -/
def movingAverageTail (arr : List ℚ) (win : ℕ) : ℚ :=
  if arr.length = 0 then 0
  else
    let n := min win arr.length
    ((arr.drop (arr.length - n)).foldl (· + ·) 0) / n

/-- The backward scan of `getLatestSegment`: index `i0` following the last
entry with `t[i] < cut` (0 when no entry qualifies). -/
def segStart (t : List ℚ) (cut : ℚ) : ℕ :=
  match t.reverse.findIdx? (fun x => decide (x < cut)) with
  | some j => t.length - j
  | none => 0

/-- `getLatestSegment(sig, t, windowSec)`: the suffix of `sig` spanning at
most `windowSec` seconds of `t`, with the rate estimate for that suffix. -/
def getLatestSegment (sig : List ℝ) (t : List ℚ) (windowSec : ℚ) : List ℝ × ℚ :=
  if sig.length = 0 ∨ t.length = 0 then ([], 30)
  else
    let tmax := t.getD (t.length - 1) 0
    let i0 := segStart t (tmax - windowSec)
    let segment := sig.drop i0
    let dt := (tmax - t.getD i0 0) / (max 1 (t.length - 1 - i0) : ℕ)
    let fsUsed := if 0 < dt then min 90 (max 10 (1 / dt)) else 30
    (segment, fsUsed)

/-- The per-bin resonator accumulation of `goertzelSpectrum`: the recurrence
`s = x[n] + coeff*s_prev - s_prev2` followed by the terminal
in-phase/quadrature magnitude squared. -/
noncomputable def goertzelPower (x : List ℝ) (w : ℝ) : ℝ :=
  let coeff := 2 * Real.cos w
  let sp := x.foldl (fun (s : ℝ × ℝ) xn => (xn + coeff * s.1 - s.2, s.1)) (0, 0)
  let re := sp.1 - sp.2 * Real.cos w
  let im := sp.2 * Real.sin w
  re * re + im * im

/-- `goertzelSpectrum(x, fs, band, bins)`: linearly spaced frequencies over
the band and the resonator power at each. -/
noncomputable def goertzelSpectrum (x : List ℝ) (fs : ℚ) (band : ℚ × ℚ) (bins : ℕ) :
    List ℚ × List ℝ :=
  let freqs := (List.range bins).map (fun i => band.1 + (band.2 - band.1) * ((i : ℚ) / ((bins : ℚ) - 1)))
  (freqs, freqs.map (fun f => goertzelPower x (2 * Real.pi * (f : ℝ) / (fs : ℝ))))

/-- `argmax(a)`: first index of the maximum, scanning upward with a strict
comparison. -/
noncomputable def argmax (a : List ℝ) : ℕ :=
  ((List.range a.length).drop 1).foldl (fun m i => if a.getD m 0 < a.getD i 0 then i else m) 0

/-- `median(a)`: middle element (or mean of the middle two) of the ascending
sort, 0 on the empty list. -/
noncomputable def median (a : List ℝ) : ℝ :=
  let b := a.mergeSort (fun x y => decide (x ≤ y))
  let n := b.length
  if n = 0 then 0
  else if n % 2 = 1 then b.getD ((n - 1) / 2) 0
  else 0.5 * (b.getD (n / 2 - 1) 0 + b.getD (n / 2) 0)

/-- The successive first differences `rrMs[i] - rrMs[i-1]` built by the loop
in `computeRMSSD`. -/
def succDiffs : List ℚ → List ℚ
  | x :: y :: rest => (y - x) :: succDiffs (y :: rest)
  | _ => []

/-- `computeRMSSD(ibisSec)`: NaN (modelled `none`) for fewer than 3 IBIs,
else the square root of the mean squared successive difference in ms. -/
noncomputable def computeRMSSD (ibisSec : List ℚ) : Option ℝ :=
  if ibisSec.length < 3 then none
  else
    let rrMs := ibisSec.map (fun s => s * 1000)
    let diffs := succDiffs rrMs
    let sq := diffs.map (fun d => d * d)
    let mean := (sq.foldl (· + ·) 0) / (sq.length : ℚ)
    some (Real.sqrt (mean : ℝ))

/-- The adaptive threshold `mean + 0.6 * sd` of `detectPeakAndIBI`, computed
over the recency window `seg = bvp.slice(max(0, N - floor(winS*fs)))` with
`winS = min(5, maxBufSec)`. -/
noncomputable def peakThreshold (st : St) (fs : ℚ) : ℝ :=
  let winS : ℚ := min 5 st.maxBufSec
  let i0 : ℤ := max 0 ((st.bvp.length : ℤ) - ⌊winS * fs⌋)
  let seg := st.bvp.drop i0.toNat
  let mean : ℝ := (seg.foldl (· + ·) 0) / (seg.length : ℝ)
  let sd : ℝ := Real.sqrt ((seg.foldl (fun s v => s + (v - mean) * (v - mean)) 0) /
    (max 1 (seg.length - 1) : ℕ))
  mean + 0.6 * sd

/-- The candidate test of `detectPeakAndIBI` at `i = N - 2`: the one-sample
delayed value exceeds the threshold and both immediate neighbours. -/
noncomputable def isCandidatePeak (st : St) (fs : ℚ) : Prop :=
  st.bvp.getD (st.bvp.length - 2) 0 > peakThreshold st fs ∧
  st.bvp.getD (st.bvp.length - 2) 0 > st.bvp.getD (st.bvp.length - 2 - 1) 0 ∧
  st.bvp.getD (st.bvp.length - 2) 0 > st.bvp.getD (st.bvp.length - 2 + 1) 0

open Classical in
/-- `detectPeakAndIBI(st, fs)`: returns the emitted IBI (or null) and the
new `lastPeakT` (the in-place mutation of the source is made explicit). -/
noncomputable def detectPeakAndIBI (st : St) (fs : ℚ) : Option ℚ × ℚ :=
  if st.bvp.length < 5 then (none, st.lastPeakT)
  else if isCandidatePeak st fs then
    let tPeak := st.t.getD (st.bvp.length - 2) 0
    if st.lastPeakT < 0 ∨ (tPeak - st.lastPeakT) > 0.33 then
      ((if st.lastPeakT > 0 then some (tPeak - st.lastPeakT) else none), tPeak)
    else (none, st.lastPeakT)
  else (none, st.lastPeakT)

/-- The head-trim loop of `trimBuffers`:
`while (t.length && t[0] < cutoff) { t.shift(); gRaw.shift(); bvp.shift(); }`. -/
def trimLoop (cutoff : ℚ) : List ℚ → List ℚ → List ℝ → List ℚ × List ℚ × List ℝ
  | t0 :: t, g, b => if t0 < cutoff then trimLoop cutoff t g.tail b.tail else (t0 :: t, g, b)
  | [], g, b => ([], g, b)

/-- The IBI-eviction loop of `trimBuffers`:
`while (ibis.length > 0 && t.length > 1) { if span <= maxBufSec break; ibis.shift(); }`. -/
def ibiEvict (maxBufSec : ℚ) (t : List ℚ) : List ℚ → List ℚ
  | [] => []
  | i :: is =>
      if 1 < t.length then
        if t.getD (t.length - 1) 0 - t.getD 0 0 ≤ maxBufSec then i :: is
        else ibiEvict maxBufSec t is
      else i :: is

/-- `trimBuffers(st)`: head-trim the three parallel buffers past
`tmax - maxBufSec`, then run the IBI-eviction loop. -/
def trimBuffers (st : St) : St :=
  if st.t.length = 0 then st
  else
    let tmax := st.t.getD (st.t.length - 1) 0
    let cutoff := tmax - st.maxBufSec
    let r := trimLoop cutoff st.t st.gRaw st.bvp
    let ibis' := ibiEvict st.maxBufSec r.1 st.ibis
    { st with t := r.1, gRaw := r.2.1, bvp := r.2.2, ibis := ibis' }

/-- Lines 282–292 of `pushSample`: append the tick, detrend by the ~1 s
trailing moving average, run both filter stages, append the filtered value,
and trim. -/
noncomputable def pushPre (st : St) (tSec gMean fs : ℚ) : St :=
  let t' := st.t ++ [tSec]
  let g' := st.gRaw ++ [gMean]
  let win : ℕ := max 5 (Int.toNat ⌊(1 : ℚ) * fs⌋)
  let detr := gMean - movingAverageTail g' win
  let s1 := st.hp.step (detr : ℝ)
  let s2 := st.lp.step s1.1
  trimBuffers { st with t := t', gRaw := g', bvp := st.bvp ++ [s2.1], hp := s1.2, lp := s2.2 }

/-- Lines 295–306 of `pushSample`: the Goertzel heart-rate branch, entered
only when the 12 s segment holds more than `fsUsed * 4` samples. (`hr` is a
finite rational here, so the `isFinite(hr)` guard of the source always
takes its true branch.) -/
noncomputable def hrStage (st : St) : St :=
  let seg := getLatestSegment st.bvp st.t 12
  if (seg.1.length : ℚ) > seg.2 * 4 then
    let spec := goertzelSpectrum seg.1 seg.2 (0.7, 3.0) 120
    let k := argmax spec.2
    let fPeak := spec.1.getD k 0
    let hr := fPeak * 60
    let med := median spec.2
    let snr' : Option ℝ :=
      if 0 < med then
        let q := spec.2.getD k 0 / med
        if q = 0 then none else some (((jsRoundR (q * 10) : ℝ)) / 10)
      else none
    { st with hrBpm := some (jsRound hr), snr := snr' }
  else st

/-- The focus-score formula of lines 316–321, with the truthiness tests on
`hrBpm` and `rm` (null/NaN/zero all falsy) made explicit. -/
noncomputable def focusScoreOf (hrCaptured : Option ℤ) (rm : Option ℝ) (hrBase rmBase : ℚ) : ℤ :=
  let hrZ : ℝ :=
    match hrCaptured with
    | none => 0
    | some h => if h = 0 then 0 else ((h : ℝ) - (hrBase : ℝ)) / max 5 (0.1 * (hrBase : ℝ))
  let rmZ : ℝ :=
    match rm with
    | none => 0
    | some r => if r = 0 then 0 else ((rmBase : ℝ) - r) / max 10 (0.25 * (rmBase : ℝ))
  max 0 (min 100 (jsRoundR (50 + 20 * hrZ + 30 * rmZ)))

/-- Lines 309–322 of `pushSample`: peak detection, IBI push with the
20-count cap, RMSSD, and focus score. `hrCaptured` is the render-captured
React value of `hrBpm` read by the closure (the pre-tick value). -/
noncomputable def ibiStage (st : St) (hrCaptured : Option ℤ) (fs : ℚ) : St :=
  let d := detectPeakAndIBI st fs
  let st1 := { st with lastPeakT := d.2 }
  match d.1 with
  | none => st1
  | some newIBI =>
      if newIBI = 0 then st1
      else
        let ibis1 := st1.ibis ++ [newIBI]
        let ibis' := if 20 < ibis1.length then ibis1.tail else ibis1
        let rm := computeRMSSD ibis'
        let rmssd' := match rm with
          | some r => some (jsRoundR r)
          | none => st1.rmssd
        let hrBase := st1.baselineHR.getD 70
        let rmBase := st1.baselineRMSSD.getD 40
        let score := focusScoreOf hrCaptured rm hrBase rmBase
        { st1 with ibis := ibis', rmssd := rmssd', focusScore := some score }

/-- `pushSample(tSec, gMean, fs)`: the full per-tick ingest. -/
noncomputable def pushSample (st : St) (tSec gMean fs : ℚ) : St :=
  let st1 := pushPre st tSec gMean fs
  let st2 := hrStage st1
  ibiStage st2 st.hrBpm fs

/-- Lines 198–204 of `loop`: advance `lastTs` and update the fps EMA from
`dt` floored at 1/120 s. -/
def tickClock (st : St) (now : ℚ) : St :=
  let dt := (now - st.lastTs) / 1000
  let instFps := 1 / max dt (1 / 120)
  { st with lastTs := now, fpsEMA := st.fpsEMA * 0.9 + instFps * 0.1 }

/-- Line 205: the effective sampling rate `Math.max(10, Math.min(90, Math.round(st.fpsEMA)))`. -/
def fsOf (st : St) : ℚ := max 10 (min 90 ((jsRound st.fpsEMA : ℚ)))

/-- Lines 206–207: both filter stages are rebuilt from this tick's rate. -/
noncomputable def tickFilters (st : St) : St :=
  { st with hp := makeBiquadHP (fsOf st) 0.7, lp := makeBiquadLP (fsOf st) 3.0 }

/-- The initial `stRef.current` record. -/
noncomputable def st0 : St :=
  { lastTs := 0, fpsEMA := 30, t := [], gRaw := [], bvp := [], maxBufSec := 60,
    hp := makeBiquadHP 30 0.7, lp := makeBiquadLP 30 3.0, lastPeakT := -1, ibis := [],
    hrBpm := none, snr := none, rmssd := none, focusScore := none,
    baselineHR := none, baselineRMSSD := none }

/-- Feed a list of `(tSec, gMean, fs)` ticks through `pushSample`. -/
noncomputable def runTicks (st : St) (ticks : List (ℚ × ℚ × ℚ)) : St :=
  ticks.foldl (fun s tk => pushSample s tk.1 tk.2.1 tk.2.2) st

/-- The buffer's timestamp span `t[last] - t[0]` is at most `m` (trivially
true of the empty buffer). -/
def spanLe (t : List ℚ) (m : ℚ) : Prop :=
  t = [] ∨ t.getD (t.length - 1) 0 - t.getD 0 0 ≤ m

/-- The buffer invariant of the spec: strictly increasing timestamps and a
span of at most `maxBufSec`. -/
def bufInv (st : St) : Prop :=
  st.t.Pairwise (· < ·) ∧ spanLe st.t st.maxBufSec

/-! ### Helper lemmas about the trim loops -/

lemma trimLoop_fst_suffix (c : ℚ) :
    ∀ (t g : List ℚ) (b : List ℝ), (trimLoop c t g b).1 <:+ t := by
  intro t
  induction t with
  | nil => intro g b; exact List.suffix_refl _
  | cons x t' ih =>
      intro g b
      by_cases hx : x < c
      · simp only [trimLoop, if_pos hx]
        exact (ih g.tail b.tail).trans (List.suffix_cons x t')
      · simp only [trimLoop, if_neg hx]
        exact List.suffix_refl _

lemma trimLoop_spec (c : ℚ) :
    ∀ (t g : List ℚ) (b : List ℝ), t ≠ [] → ¬ (t.getD (t.length - 1) 0 < c) →
      ∃ a l, (trimLoop c t g b).1 = a :: l ∧ ¬ a < c ∧
        (a :: l).getD ((a :: l).length - 1) 0 = t.getD (t.length - 1) 0 := by
  intro t
  induction t with
  | nil => intro g b hne; exact absurd rfl hne
  | cons x t' ih =>
      intro g b _ hlast
      cases t' with
      | nil =>
          have hx : ¬ x < c := by simpa using hlast
          refine ⟨x, [], ?_, hx, rfl⟩
          simp [trimLoop, hx]
      | cons y t'' =>
          have hidx : (x :: y :: t'').getD ((x :: y :: t'').length - 1) 0
              = (y :: t'').getD ((y :: t'').length - 1) 0 := by
            simp [List.getD_cons_succ, List.length_cons]
          rw [hidx] at hlast
          by_cases hx : x < c
          · simp only [trimLoop, if_pos hx]
            obtain ⟨a, l, h1, h2, h3⟩ := ih g.tail b.tail (List.cons_ne_nil _ _) hlast
            exact ⟨a, l, h1, h2, by rw [h3, hidx]⟩
          · simp only [trimLoop, if_neg hx]
            exact ⟨x, y :: t'', rfl, hx, rfl⟩

lemma ibiEvict_cons (m : ℚ) (t : List ℚ) (i : ℚ) (is : List ℚ) :
    ibiEvict m t (i :: is) =
      if 1 < t.length then
        if t.getD (t.length - 1) 0 - t.getD 0 0 ≤ m then i :: is
        else ibiEvict m t is
      else i :: is := rfl

lemma ibiEvict_of_spanLe {m : ℚ} {t : List ℚ} (h : spanLe t m) :
    ∀ is, ibiEvict m t is = is := by
  intro is
  cases is with
  | nil => rfl
  | cons i is' =>
      rw [ibiEvict_cons]
      by_cases hlen : 1 < t.length
      · rw [if_pos hlen]
        rcases h with h | h
        · rw [h] at hlen
          simp at hlen
        · rw [if_pos h]
      · rw [if_neg hlen]

lemma trimBuffers_fields (st : St) :
    (trimBuffers st).maxBufSec = st.maxBufSec ∧
    (trimBuffers st).hrBpm = st.hrBpm ∧ (trimBuffers st).snr = st.snr ∧
    (trimBuffers st).lastPeakT = st.lastPeakT ∧
    (trimBuffers st).rmssd = st.rmssd ∧ (trimBuffers st).focusScore = st.focusScore ∧
    (trimBuffers st).baselineHR = st.baselineHR ∧
    (trimBuffers st).baselineRMSSD = st.baselineRMSSD := by
  by_cases h : st.t.length = 0 <;> simp [trimBuffers, h]

lemma trimBuffers_t_spec {st : St} (h0 : 0 ≤ st.maxBufSec) (hne : st.t ≠ []) :
    (trimBuffers st).t <:+ st.t ∧ spanLe (trimBuffers st).t st.maxBufSec := by
  have hlen : ¬ st.t.length = 0 := by simpa [List.length_eq_zero] using hne
  have hlast : ¬ (st.t.getD (st.t.length - 1) 0 <
      st.t.getD (st.t.length - 1) 0 - st.maxBufSec) := by
    intro hcon
    linarith
  obtain ⟨a, l, h1, h2, h3⟩ :=
    trimLoop_spec (st.t.getD (st.t.length - 1) 0 - st.maxBufSec) st.t st.gRaw st.bvp hne hlast
  have ht : (trimBuffers st).t
      = (trimLoop (st.t.getD (st.t.length - 1) 0 - st.maxBufSec) st.t st.gRaw st.bvp).1 := by
    simp only [trimBuffers, if_neg hlen]
  constructor
  · rw [ht]; exact trimLoop_fst_suffix _ _ _ _
  · rw [ht, h1]
    right
    have ha : (a :: l).getD 0 0 = a := rfl
    rw [ha, h3]
    linarith [not_lt.mp h2]

lemma trimBuffers_ibis {st : St} (h0 : 0 ≤ st.maxBufSec) :
    (trimBuffers st).ibis = st.ibis := by
  by_cases hlen : st.t.length = 0
  · simp [trimBuffers, hlen]
  · have hne : st.t ≠ [] := by
      intro h; rw [h] at hlen; exact hlen rfl
    have hlast : ¬ (st.t.getD (st.t.length - 1) 0 <
        st.t.getD (st.t.length - 1) 0 - st.maxBufSec) := by
      intro hcon; linarith
    obtain ⟨a, l, h1, h2, h3⟩ :=
      trimLoop_spec (st.t.getD (st.t.length - 1) 0 - st.maxBufSec) st.t st.gRaw st.bvp hne hlast
    have hspan : spanLe
        (trimLoop (st.t.getD (st.t.length - 1) 0 - st.maxBufSec) st.t st.gRaw st.bvp).1
        st.maxBufSec := by
      rw [h1]
      right
      have ha : (a :: l).getD 0 0 = a := rfl
      rw [ha, h3]
      linarith [not_lt.mp h2]
    have htb : (trimBuffers st).ibis
        = ibiEvict st.maxBufSec
          (trimLoop (st.t.getD (st.t.length - 1) 0 - st.maxBufSec) st.t st.gRaw st.bvp).1
          st.ibis := by
      simp only [trimBuffers, if_neg hlen]
    rw [htb, ibiEvict_of_spanLe hspan]

/-! ### Projection lemmas for the pushSample stages -/

lemma hrStage_fields (st : St) :
    (hrStage st).t = st.t ∧ (hrStage st).gRaw = st.gRaw ∧ (hrStage st).bvp = st.bvp ∧
    (hrStage st).maxBufSec = st.maxBufSec ∧ (hrStage st).ibis = st.ibis ∧
    (hrStage st).lastPeakT = st.lastPeakT ∧ (hrStage st).rmssd = st.rmssd ∧
    (hrStage st).focusScore = st.focusScore ∧ (hrStage st).baselineHR = st.baselineHR ∧
    (hrStage st).baselineRMSSD = st.baselineRMSSD := by
  by_cases h : ((getLatestSegment st.bvp st.t 12).1.length : ℚ)
      > (getLatestSegment st.bvp st.t 12).2 * 4 <;>
    simp [hrStage, h]

lemma ibiStage_fields (st : St) (hrCaptured : Option ℤ) (fs : ℚ) :
    (ibiStage st hrCaptured fs).t = st.t ∧ (ibiStage st hrCaptured fs).gRaw = st.gRaw ∧
    (ibiStage st hrCaptured fs).bvp = st.bvp ∧
    (ibiStage st hrCaptured fs).maxBufSec = st.maxBufSec ∧
    (ibiStage st hrCaptured fs).hrBpm = st.hrBpm ∧ (ibiStage st hrCaptured fs).snr = st.snr := by
  rcases hd : (detectPeakAndIBI st fs).1 with _ | ibi
  · simp [ibiStage, hd]
  · by_cases h0 : ibi = 0 <;> simp [ibiStage, hd, h0]

lemma pushPre_hr_fields (st : St) (tSec gMean fs : ℚ) :
    (pushPre st tSec gMean fs).hrBpm = st.hrBpm ∧ (pushPre st tSec gMean fs).snr = st.snr ∧
    (pushPre st tSec gMean fs).maxBufSec = st.maxBufSec := by
  refine ⟨?_, ?_, ?_⟩
  · simp only [pushPre]
    rw [(trimBuffers_fields _).2.1]
  · simp only [pushPre]
    rw [(trimBuffers_fields _).2.2.1]
  · simp only [pushPre]
    rw [(trimBuffers_fields _).1]

lemma pushPre_ibis {st : St} (h0 : 0 ≤ st.maxBufSec) (tSec gMean fs : ℚ) :
    (pushPre st tSec gMean fs).ibis = st.ibis := by
  simp only [pushPre]
  exact trimBuffers_ibis h0

/-! ### Claim theorems -/

lemma clamp_round_comm (q : ℚ) :
    max 10 (min 90 ((jsRound q : ℤ) : ℚ)) = ((jsRound (max 10 (min 90 q)) : ℤ) : ℚ) := by
  have h10 : jsRound (10 : ℚ) = 10 := by norm_num [jsRound]
  have h90 : jsRound (90 : ℚ) = 90 := by norm_num [jsRound]
  rcases le_total q 10 with hq10 | hq10
  · have hmin : min 90 q = q := min_eq_right (hq10.trans (by norm_num))
    have hmax : max 10 q = 10 := max_eq_left hq10
    have hjr : jsRound q ≤ 10 := by
      have := Int.floor_le_floor (α := ℚ) (add_le_add_right hq10 (1/2))
      rwa [show ⌊(10 : ℚ) + 1/2⌋ = 10 from h10] at this
    have hjr' : ((jsRound q : ℤ) : ℚ) ≤ 10 := by exact_mod_cast hjr
    rw [hmin, hmax, h10]
    rw [min_eq_right (hjr'.trans (by norm_num)), max_eq_left hjr']
    norm_num
  · rcases le_total (90 : ℚ) q with hq90 | hq90
    · have hmin : min 90 q = 90 := min_eq_left hq90
      have hjr : (90 : ℤ) ≤ jsRound q := by
        have := Int.floor_le_floor (α := ℚ) (add_le_add_right hq90 (1/2))
        rwa [show ⌊(90 : ℚ) + 1/2⌋ = 90 from h90] at this
      have hjr' : (90 : ℚ) ≤ ((jsRound q : ℤ) : ℚ) := by exact_mod_cast hjr
      rw [hmin, max_eq_right (by norm_num : (10 : ℚ) ≤ 90), h90]
      rw [min_eq_left hjr', max_eq_right (by norm_num : (10 : ℚ) ≤ 90)]
      norm_num
    · have hmin : min 90 q = q := min_eq_right hq90
      have hmax : max 10 q = q := max_eq_right hq10
      have hlo : (10 : ℤ) ≤ jsRound q := by
        have := Int.floor_le_floor (α := ℚ) (add_le_add_right hq10 (1/2))
        rwa [show ⌊(10 : ℚ) + 1/2⌋ = 10 from h10] at this
      have hhi : jsRound q ≤ 90 := by
        have := Int.floor_le_floor (α := ℚ) (add_le_add_right hq90 (1/2))
        rwa [show ⌊(90 : ℚ) + 1/2⌋ = 90 from h90] at this
      have hlo' : (10 : ℚ) ≤ ((jsRound q : ℤ) : ℚ) := by exact_mod_cast hlo
      have hhi' : ((jsRound q : ℤ) : ℚ) ≤ 90 := by exact_mod_cast hhi
      rw [hmin, hmax, min_eq_right hhi', max_eq_right hlo']

/-- Claim C8: each tick updates `fpsEMA` by the EMA formula with the
instantaneous rate `1 / max(dt, 1/120)`, the divisor is strictly positive
(no division by zero even when `dt = 0` or negative), the effective rate
equals `round(clamp(fpsEMA, 10, 90))`, and it always lies in [10, 90]. -/
theorem C8_sampling_clock (st : St) (now : ℚ) :
    (tickClock st now).fpsEMA
      = st.fpsEMA * 0.9 + (1 / max ((now - st.lastTs) / 1000) (1 / 120)) * 0.1 ∧
    0 < max ((now - st.lastTs) / 1000) (1 / 120) ∧
    fsOf (tickClock st now) = ((jsRound (max 10 (min 90 (tickClock st now).fpsEMA)) : ℤ) : ℚ) ∧
    10 ≤ fsOf (tickClock st now) ∧ fsOf (tickClock st now) ≤ 90 := by
  refine ⟨rfl, ?_, clamp_round_comm _, le_max_left _ _, ?_⟩
  · exact lt_max_of_lt_right (by norm_num)
  · exact max_le (by norm_num) (min_le_left _ _)

/-- Claim C9: for all inputs (any captured heart rate, any RMSSD value
including NaN/absent, any baselines), the focus score
`max(0, min(100, round(50 + 20*hrZ + 30*rmZ)))` lies in [0, 100]. -/
theorem C9_focus_bounded (hrCaptured : Option ℤ) (rm : Option ℝ) (hrBase rmBase : ℚ) :
    0 ≤ focusScoreOf hrCaptured rm hrBase rmBase ∧
    focusScoreOf hrCaptured rm hrBase rmBase ≤ 100 :=
  ⟨le_max_left _ _, max_le (by norm_num) (min_le_left _ _)⟩

lemma succDiffs_length : ∀ l : List ℚ, (succDiffs l).length = l.length - 1
  | [] => rfl
  | [_] => rfl
  | x :: y :: rest => by
      have h := succDiffs_length (y :: rest)
      simp only [succDiffs, List.length_cons] at h ⊢
      omega

lemma computeRMSSD_of_three_le {l : List ℚ} (h : 3 ≤ l.length) :
    computeRMSSD l = some (Real.sqrt
      (((((succDiffs (l.map (fun s => s * 1000))).map (fun d => d * d)).foldl (· + ·) 0
        / ((l.length - 1 : ℕ) : ℚ)) : ℚ) : ℝ)) := by
  have hlen : (succDiffs (l.map (fun s => s * 1000))).length = l.length - 1 := by
    rw [succDiffs_length, List.length_map]
  simp only [computeRMSSD, if_neg (not_lt.mpr h)]
  rw [List.length_map, hlen]

/-- Claim C7: with fewer than 3 IBIs `computeRMSSD` produces no value
(NaN, modelled `none`); with at least 3 it converts to milliseconds, takes
the `n-1` successive first differences (2 differences for exactly 3 IBIs),
squares, averages over `n-1`, and returns the square root. -/
theorem C7_rmssd_structure (l : List ℚ) :
    (l.length < 3 → computeRMSSD l = none) ∧
    (3 ≤ l.length →
      (succDiffs (l.map (fun s => s * 1000))).length = l.length - 1 ∧
      computeRMSSD l = some (Real.sqrt
        (((((succDiffs (l.map (fun s => s * 1000))).map (fun d => d * d)).foldl (· + ·) 0
          / ((l.length - 1 : ℕ) : ℚ)) : ℚ) : ℝ))) := by
  constructor
  · intro h
    simp only [computeRMSSD, if_pos h]
  · intro h
    have hlen : (succDiffs (l.map (fun s => s * 1000))).length = l.length - 1 := by
      rw [succDiffs_length, List.length_map]
    exact ⟨hlen, computeRMSSD_of_three_le h⟩

/-- Witness for C7 at the concrete inputs `[1, 2]` (too short) and
`[1, 1, 26/25]` (exactly 3 IBIs, hence 2 differences). -/
theorem C7_rmssd_structure_witness :
    (([1, 2] : List ℚ).length < 3 ∧ computeRMSSD [1, 2] = none) ∧
    (3 ≤ ([1, 1, (26/25 : ℚ)] : List ℚ).length ∧
      (succDiffs (([1, 1, (26/25 : ℚ)] : List ℚ).map (fun s => s * 1000))).length
        = ([1, 1, (26/25 : ℚ)] : List ℚ).length - 1 ∧
      computeRMSSD [1, 1, (26/25 : ℚ)] = some (Real.sqrt
        (((((succDiffs (([1, 1, (26/25 : ℚ)] : List ℚ).map (fun s => s * 1000))).map
            (fun d => d * d)).foldl (· + ·) 0
          / ((([1, 1, (26/25 : ℚ)] : List ℚ).length - 1 : ℕ) : ℚ)) : ℚ) : ℝ))) :=
  ⟨⟨by decide, (C7_rmssd_structure [1, 2]).1 (by decide)⟩,
   by decide, (C7_rmssd_structure [1, 1, (26/25 : ℚ)]).2 (by decide)⟩

lemma computeRMSSD_specInput : computeRMSSD [1, 1, 1, 26/25, 24/25] = some (Real.sqrt 2000) := by
  have hmean : ((((succDiffs (([1, 1, 1, 26/25, 24/25] : List ℚ).map (fun s => s * 1000))).map
      (fun d => d * d)).foldl (· + ·) 0
      / ((([1, 1, 1, 26/25, 24/25] : List ℚ).length - 1 : ℕ) : ℚ)) : ℚ) = 2000 := by
    norm_num [succDiffs]
  have h := computeRMSSD_of_three_le (l := [1, 1, 1, 26/25, 24/25]) (by norm_num)
  rw [h, hmean]
  norm_num

/-- Counterexample to claim C4: on the spec's own test input the
successive differences in ms are 0, 0, 40, −80 (not 0, 0, 40, −40), so
`computeRMSSD` returns √2000 ≈ 44.72 ms, which is not within the source
self-test's own ±5 ms tolerance of 28.3 ms. -/
theorem C4_counterexample :
    computeRMSSD [1, 1, 1, 26/25, 24/25] = some (Real.sqrt 2000) ∧
    ¬ |Real.sqrt 2000 - 28.3| ≤ 5 := by
  refine ⟨computeRMSSD_specInput, ?_⟩
  have h333 : Real.sqrt 1108.89 = 33.3 := by
    rw [show (1108.89 : ℝ) = 33.3 ^ 2 by norm_num, Real.sqrt_sq (by norm_num)]
  have h1 : (33.3 : ℝ) < Real.sqrt 2000 := by
    have := Real.sqrt_lt_sqrt (by norm_num : (0 : ℝ) ≤ 1108.89)
      (by norm_num : (1108.89 : ℝ) < 2000)
    linarith [h333 ▸ this]
  rw [abs_of_nonneg (by linarith)]
  intro hcon
  linarith

/-- Claim C4 amended: for the interval list [1.0, 1.0, 1.0, 1.04, 0.96] s
the pure RMSSD function returns √2000 ≈ 44.72 ms (successive differences
in ms 0, 0, 40, −80; mean square 2000), within 0.1 of 44.7. -/
theorem C4_rmssd_actual :
    computeRMSSD [1, 1, 1, 26/25, 24/25] = some (Real.sqrt 2000) ∧
    |Real.sqrt 2000 - 44.7| < 0.1 := by
  refine ⟨computeRMSSD_specInput, ?_⟩
  have h446 : Real.sqrt 1989.16 = 44.6 := by
    rw [show (1989.16 : ℝ) = 44.6 ^ 2 by norm_num, Real.sqrt_sq (by norm_num)]
  have h448 : Real.sqrt 2007.04 = 44.8 := by
    rw [show (2007.04 : ℝ) = 44.8 ^ 2 by norm_num, Real.sqrt_sq (by norm_num)]
  have h1 : (44.6 : ℝ) < Real.sqrt 2000 := by
    have := Real.sqrt_lt_sqrt (by norm_num : (0 : ℝ) ≤ 1989.16)
      (by norm_num : (1989.16 : ℝ) < 2000)
    linarith [h446 ▸ this]
  have h2 : Real.sqrt 2000 < 44.8 := by
    have := Real.sqrt_lt_sqrt (by norm_num : (0 : ℝ) ≤ 2000)
      (by norm_num : (2000 : ℝ) < 2007.04)
    linarith [h448 ▸ this]
  rw [abs_lt]
  constructor <;> linarith

lemma trimLoop_fst_eq (c : ℚ) :
    ∀ (t g : List ℚ) (b : List ℝ) (g' : List ℚ) (b' : List ℝ),
      (trimLoop c t g b).1 = (trimLoop c t g' b').1 := by
  intro t
  induction t with
  | nil => intro g b g' b'; rfl
  | cons x t' ih =>
      intro g b g' b'
      by_cases hx : x < c
      · simp only [trimLoop, if_pos hx]
        exact ih _ _ _ _
      · simp only [trimLoop, if_neg hx]

lemma trimBuffers_t (st : St) :
    (trimBuffers st).t = if st.t.length = 0 then st.t
      else (trimLoop (st.t.getD (st.t.length - 1) 0 - st.maxBufSec) st.t st.gRaw st.bvp).1 := by
  by_cases h : st.t.length = 0
  · rw [if_pos h]
    simp only [trimBuffers, if_pos h]
  · rw [if_neg h]
    simp only [trimBuffers, if_neg h]

lemma pushPre_t (st : St) (tSec g fs : ℚ) :
    (pushPre st tSec g fs).t
      = (trimLoop ((st.t ++ [tSec]).getD ((st.t ++ [tSec]).length - 1) 0 - st.maxBufSec)
          (st.t ++ [tSec]) [] []).1 := by
  have hne : ¬ (st.t ++ [tSec]).length = 0 := by simp
  simp only [pushPre]
  rw [trimBuffers_t]
  dsimp only
  rw [if_neg hne]
  exact trimLoop_fst_eq _ _ _ _ _ _

lemma pushSample_t_eq (st : St) (tSec g fs : ℚ) :
    (pushSample st tSec g fs).t = (pushPre st tSec g fs).t := by
  simp only [pushSample]
  rw [(ibiStage_fields _ _ _).1, (hrStage_fields _).1]

lemma pushSample_maxBufSec (st : St) (tSec g fs : ℚ) :
    (pushSample st tSec g fs).maxBufSec = st.maxBufSec := by
  simp only [pushSample]
  rw [(ibiStage_fields _ _ _).2.2.2.1, (hrStage_fields _).2.2.2.1,
    (pushPre_hr_fields _ _ _ _).2.2]

lemma push1_t : (pushSample st0 1 128 30).t = [1] := by
  rw [pushSample_t_eq, pushPre_t]
  norm_num [st0, trimLoop]

lemma push2_t : (pushSample (pushSample st0 1 128 30) (1/2) 128 30).t = [1, 1/2] := by
  rw [pushSample_t_eq, pushPre_t, push1_t, pushSample_maxBufSec]
  norm_num [st0, trimLoop]

/-- Counterexample to claim C2: starting from the initial state, a tick at
t = 1 s followed by an out-of-order tick at t = 0.5 s is silently accepted —
the buffer grows from [1] to [1, 1/2] instead of being left unchanged, and
no error path exists in `pushSample`. -/
theorem C2_counterexample :
    (pushSample st0 1 128 30).t = [1] ∧
    (pushSample (pushSample st0 1 128 30) (1/2) 128 30).t = [1, 1/2] ∧
    ¬ ((1 : ℚ) < 1/2) :=
  ⟨push1_t, push2_t, by norm_num⟩

/-- Claim C2 amended: `pushSample` performs no timestamp-monotonicity check;
every tick — including one whose timestamp is not strictly greater than the
previous one — is appended to the buffer (and survives the head-trim), with no
reportable error. -/
theorem C2_always_accepts (st : St) (tSec g fs : ℚ) (h0 : 0 ≤ st.maxBufSec) :
    tSec ∈ (pushSample st tSec g fs).t := by
  rw [pushSample_t_eq, pushPre_t]
  have hne : st.t ++ [tSec] ≠ [] := by simp
  have hlen : (st.t ++ [tSec]).length - 1 = st.t.length := by simp
  have hlast : (st.t ++ [tSec]).getD ((st.t ++ [tSec]).length - 1) 0 = tSec := by
    rw [hlen, List.getD_append_right _ _ _ _ (le_refl _)]
    simp
  have hcut : ¬ ((st.t ++ [tSec]).getD ((st.t ++ [tSec]).length - 1) 0 <
      (st.t ++ [tSec]).getD ((st.t ++ [tSec]).length - 1) 0 - st.maxBufSec) := by
    intro hcon
    linarith
  obtain ⟨a, l, h1, _, h3⟩ := trimLoop_spec
    ((st.t ++ [tSec]).getD ((st.t ++ [tSec]).length - 1) 0 - st.maxBufSec)
    (st.t ++ [tSec]) [] [] hne hcut
  rw [h1]
  rw [hlast] at h3
  have hmem : (a :: l).getD ((a :: l).length - 1) 0 ∈ a :: l := by
    rw [List.getD_eq_getElem _ _ (by simp : (a :: l).length - 1 < (a :: l).length)]
    exact List.getElem_mem _
  rwa [h3] at hmem

/-- Witness for C2 at the initial state: the tick at t = 3 is accepted into
the buffer. -/
theorem C2_always_accepts_witness :
    0 ≤ st0.maxBufSec ∧ (3 : ℚ) ∈ (pushSample st0 3 128 30).t :=
  ⟨by norm_num [st0], C2_always_accepts st0 3 128 30 (by norm_num [st0])⟩

lemma pushSample_bufInv {st : St} (h0 : 0 ≤ st.maxBufSec) (tSec g fs : ℚ)
    (hpw : st.t.Pairwise (· < ·)) (hlt : ∀ x ∈ st.t, x < tSec) :
    (pushSample st tSec g fs).t.Pairwise (· < ·) ∧
    spanLe (pushSample st tSec g fs).t st.maxBufSec ∧
    ∀ x ∈ (pushSample st tSec g fs).t, x ∈ st.t ++ [tSec] := by
  rw [pushSample_t_eq, pushPre_t]
  have hne : st.t ++ [tSec] ≠ [] := by simp
  have hlen : (st.t ++ [tSec]).length - 1 = st.t.length := by simp
  have hlast : (st.t ++ [tSec]).getD ((st.t ++ [tSec]).length - 1) 0 = tSec := by
    rw [hlen, List.getD_append_right _ _ _ _ (le_refl _)]
    simp
  have hcut : ¬ ((st.t ++ [tSec]).getD ((st.t ++ [tSec]).length - 1) 0 <
      (st.t ++ [tSec]).getD ((st.t ++ [tSec]).length - 1) 0 - st.maxBufSec) := by
    intro hcon
    linarith
  have hsuff := trimLoop_fst_suffix
    ((st.t ++ [tSec]).getD ((st.t ++ [tSec]).length - 1) 0 - st.maxBufSec)
    (st.t ++ [tSec]) [] []
  have happ : (st.t ++ [tSec]).Pairwise (· < ·) := by
    rw [List.pairwise_append]
    refine ⟨hpw, List.pairwise_singleton _ _, ?_⟩
    intro a ha b hb
    rw [List.mem_singleton] at hb
    subst hb
    exact hlt a ha
  refine ⟨happ.sublist hsuff.sublist, ?_, fun x hx => hsuff.sublist.subset hx⟩
  obtain ⟨a, l, h1, h2, h3⟩ := trimLoop_spec
    ((st.t ++ [tSec]).getD ((st.t ++ [tSec]).length - 1) 0 - st.maxBufSec)
    (st.t ++ [tSec]) [] [] hne hcut
  rw [h1]
  right
  have ha : (a :: l).getD 0 0 = a := rfl
  rw [ha, h3, hlast]
  have := not_lt.mp h2
  rw [hlast] at this
  linarith

lemma runTicks_inv :
    ∀ (ticks : List (ℚ × ℚ × ℚ)) (st : St), 0 ≤ st.maxBufSec →
      st.t.Pairwise (· < ·) → spanLe st.t st.maxBufSec →
      (∀ p ∈ ticks, ∀ x ∈ st.t, x < p.1) →
      List.Pairwise (· < ·) (ticks.map (fun p => p.1)) →
      (runTicks st ticks).t.Pairwise (· < ·) ∧
      spanLe (runTicks st ticks).t st.maxBufSec ∧
      (runTicks st ticks).maxBufSec = st.maxBufSec := by
  intro ticks
  induction ticks with
  | nil => intro st _ hpw hs _ _; exact ⟨hpw, hs, rfl⟩
  | cons tk rest ih =>
      intro st h0 hpw hs hfresh hmono
      have hlt : ∀ x ∈ st.t, x < tk.1 := hfresh tk (List.mem_cons_self _ _)
      obtain ⟨hpw', hs', hmem'⟩ := pushSample_bufInv h0 tk.1 tk.2.1 tk.2.2 hpw hlt
      rw [List.map_cons, List.pairwise_cons] at hmono
      obtain ⟨hrel, hmonorest⟩ := hmono
      have h0' : 0 ≤ (pushSample st tk.1 tk.2.1 tk.2.2).maxBufSec := by
        rw [pushSample_maxBufSec]; exact h0
      have hs'' : spanLe (pushSample st tk.1 tk.2.1 tk.2.2).t
          (pushSample st tk.1 tk.2.1 tk.2.2).maxBufSec := by
        rw [pushSample_maxBufSec]; exact hs'
      have hfresh' : ∀ p ∈ rest, ∀ x ∈ (pushSample st tk.1 tk.2.1 tk.2.2).t, x < p.1 := by
        intro p hp x hx
        have hb : tk.1 < p.1 := hrel p.1 (List.mem_map_of_mem _ hp)
        rcases List.mem_append.mp (hmem' x hx) with hx' | hx'
        · exact lt_trans (hlt x hx') hb
        · rw [List.mem_singleton] at hx'
          subst hx'
          exact hb
      have hrun : runTicks st (tk :: rest)
          = runTicks (pushSample st tk.1 tk.2.1 tk.2.2) rest := rfl
      rw [hrun]
      obtain ⟨r1, r2, r3⟩ := ih (pushSample st tk.1 tk.2.1 tk.2.2) h0' hpw' hs'' hfresh'
        hmonorest
      rw [pushSample_maxBufSec] at r2 r3
      exact ⟨r1, r2, r3⟩

/-- Claim C3: for every sequence of ticks obeying the ingest constraint
(strictly increasing timestamps), after every tick's trim the buffer's
timestamps are strictly increasing and the span `t[last] - t[0]` is at most
`maxRetentionSeconds` (`maxBufSec = 60` from the initial state). Arbitrary
tick lists cover every prefix, so the invariant holds after each trim. -/
theorem C3_buffer_invariant (ticks : List (ℚ × ℚ × ℚ))
    (hmono : List.Pairwise (· < ·) (ticks.map (fun p => p.1))) :
    bufInv (runTicks st0 ticks) ∧ (runTicks st0 ticks).maxBufSec = 60 := by
  have h := runTicks_inv ticks st0 (by norm_num [st0]) (by simp [st0]) (Or.inl (by simp [st0]))
    (by intro p _ x hx; simp [st0] at hx) hmono
  have hmax : st0.maxBufSec = 60 := rfl
  refine ⟨⟨h.1, ?_⟩, by rw [h.2.2, hmax]⟩
  rw [h.2.2, hmax]
  rw [hmax] at h
  exact h.2.1

/-- Witness for C3 on a concrete strictly increasing two-tick run. -/
theorem C3_buffer_invariant_witness :
    List.Pairwise (· < ·) (([((1 : ℚ), (128 : ℚ), (30 : ℚ)), (2, 128, 30)]).map (fun p => p.1)) ∧
    bufInv (runTicks st0 [((1 : ℚ), (128 : ℚ), (30 : ℚ)), (2, 128, 30)]) ∧
    (runTicks st0 [((1 : ℚ), (128 : ℚ), (30 : ℚ)), (2, 128, 30)]).maxBufSec = 60 :=
  ⟨by decide,
    (C3_buffer_invariant [((1 : ℚ), (128 : ℚ), (30 : ℚ)), (2, 128, 30)] (by decide)).1,
    (C3_buffer_invariant [((1 : ℚ), (128 : ℚ), (30 : ℚ)), (2, 128, 30)] (by decide)).2⟩

lemma ibiStage_ibis (st : St) (hrCaptured : Option ℤ) (fs : ℚ) :
    (ibiStage st hrCaptured fs).ibis = st.ibis ∨
    ∃ x, (ibiStage st hrCaptured fs).ibis =
      (if 20 < (st.ibis ++ [x]).length then (st.ibis ++ [x]).tail else st.ibis ++ [x]) := by
  rcases hd : (detectPeakAndIBI st fs).1 with _ | ibi
  · left
    simp [ibiStage, hd]
  · by_cases h0 : ibi = 0
    · left
      simp [ibiStage, hd, h0]
    · right
      refine ⟨ibi, ?_⟩
      simp [ibiStage, hd, h0]

/-- Claim C10: the head-trim already cuts the buffer span to at most
`maxBufSec`, so the subsequent IBI-eviction loop of `trimBuffers` never
removes an IBI; across a whole `pushSample` the IBI list changes only by the
20-capped append of a newly emitted interval. -/
theorem C10_trim_never_evicts (st : St) (h0 : 0 ≤ st.maxBufSec) :
    (trimBuffers st).ibis = st.ibis ∧
    ∀ tSec g fs, (pushSample st tSec g fs).ibis = st.ibis ∨
      ∃ x, (pushSample st tSec g fs).ibis =
        (if 20 < (st.ibis ++ [x]).length then (st.ibis ++ [x]).tail else st.ibis ++ [x]) := by
  refine ⟨trimBuffers_ibis h0, ?_⟩
  intro tSec g fs
  have hpre : (pushPre st tSec g fs).ibis = st.ibis := pushPre_ibis h0 tSec g fs
  have hhr : (hrStage (pushPre st tSec g fs)).ibis = st.ibis := by
    rw [(hrStage_fields _).2.2.2.2.1, hpre]
  have := ibiStage_ibis (hrStage (pushPre st tSec g fs)) st.hrBpm fs
  rw [hhr] at this
  exact this

/-- Witness for C10 at the initial state. -/
theorem C10_trim_never_evicts_witness :
    0 ≤ st0.maxBufSec ∧ ((trimBuffers st0).ibis = st0.ibis ∧
      ∀ tSec g fs, (pushSample st0 tSec g fs).ibis = st0.ibis ∨
        ∃ x, (pushSample st0 tSec g fs).ibis =
          (if 20 < (st0.ibis ++ [x]).length then (st0.ibis ++ [x]).tail else st0.ibis ++ [x])) :=
  ⟨by norm_num [st0], C10_trim_never_evicts st0 (by norm_num [st0])⟩

lemma trimBuffers_bvp (st : St) :
    (trimBuffers st).bvp = if st.t.length = 0 then st.bvp
      else (trimLoop (st.t.getD (st.t.length - 1) 0 - st.maxBufSec) st.t st.gRaw st.bvp).2.2 := by
  by_cases h : st.t.length = 0
  · rw [if_pos h]
    simp only [trimBuffers, if_pos h]
  · rw [if_neg h]
    simp only [trimBuffers, if_neg h]

/-- A state whose heart-rate and quality fields were set by an earlier tick. -/
noncomputable def stS : St := { st0 with hrBpm := some 72, snr := some 2 }

lemma pushPre_stS_t : (pushPre stS 1 128 30).t = [1] := by
  rw [pushPre_t]
  norm_num [stS, st0, trimLoop]

lemma pushPre_stS_bvp_len : (pushPre stS 1 128 30).bvp.length = 1 := by
  simp only [pushPre]
  rw [trimBuffers_bvp]
  dsimp only
  rw [if_neg (by simp)]
  norm_num [stS, st0, trimLoop]

lemma segStart_single : segStart [1] (-11 : ℚ) = 0 := by
  norm_num [segStart, List.findIdx?_cons, List.findIdx?_nil]

lemma stS_skip :
    ¬ (((getLatestSegment (pushPre stS 1 128 30).bvp (pushPre stS 1 128 30).t 12).1.length : ℚ)
      > (getLatestSegment (pushPre stS 1 128 30).bvp (pushPre stS 1 128 30).t 12).2 * 4) := by
  rcases hsig : (pushPre stS 1 128 30).bvp with _ | ⟨e, rest⟩
  · have hb := pushPre_stS_bvp_len
    rw [hsig] at hb
    simp at hb
  · have hrest : rest = [] := by
      have hb := pushPre_stS_bvp_len
      rw [hsig] at hb
      simpa using hb
    subst hrest
    rw [pushPre_stS_t]
    simp only [getLatestSegment]
    norm_num [segStart_single]

lemma hrStage_skip {s : St}
    (h : ¬ (((getLatestSegment s.bvp s.t 12).1.length : ℚ)
      > (getLatestSegment s.bvp s.t 12).2 * 4)) : hrStage s = s := by
  simp [hrStage, h]

/-- Counterexample to claim C6: a tick with insufficient data (a one-sample
buffer) skips the spectral estimator, yet the heart-rate and quality fields
keep the stale values previously set (some 72 / some 2) instead of being
absent. -/
theorem C6_counterexample :
    (¬ (((getLatestSegment (pushPre stS 1 128 30).bvp (pushPre stS 1 128 30).t 12).1.length : ℚ)
      > (getLatestSegment (pushPre stS 1 128 30).bvp (pushPre stS 1 128 30).t 12).2 * 4)) ∧
    stS.hrBpm = some 72 ∧ stS.snr = some 2 ∧
    (pushSample stS 1 128 30).hrBpm = some 72 ∧ (pushSample stS 1 128 30).snr = some 2 ∧
    (pushSample stS 1 128 30).hrBpm ≠ none := by
  have hhr : (pushSample stS 1 128 30).hrBpm = stS.hrBpm := by
    simp only [pushSample]
    rw [(ibiStage_fields _ _ _).2.2.2.2.1, hrStage_skip stS_skip, (pushPre_hr_fields _ _ _ _).1]
  have hsnr : (pushSample stS 1 128 30).snr = stS.snr := by
    simp only [pushSample]
    rw [(ibiStage_fields _ _ _).2.2.2.2.2, hrStage_skip stS_skip, (pushPre_hr_fields _ _ _ _).2.1]
  exact ⟨stS_skip, rfl, rfl, by rw [hhr]; rfl, by rw [hsnr]; rfl, by rw [hhr]; simp [stS]⟩

/-- Claim C6 amended: whenever the 12 s analysis segment does not contain
more than `fsUsed * 4` samples, the spectral estimator is skipped for that
tick and the heart-rate and quality-ratio fields are left unchanged from the
previous tick (stale values persist; they are absent only if no earlier tick
ever computed them); no sentinel numeric value is written. -/
theorem C6_skip_keeps_fields (st : St) (tSec g fs : ℚ)
    (h : ¬ (((getLatestSegment (pushPre st tSec g fs).bvp (pushPre st tSec g fs).t 12).1.length : ℚ)
      > (getLatestSegment (pushPre st tSec g fs).bvp (pushPre st tSec g fs).t 12).2 * 4)) :
    (pushSample st tSec g fs).hrBpm = st.hrBpm ∧ (pushSample st tSec g fs).snr = st.snr := by
  constructor
  · simp only [pushSample]
    rw [(ibiStage_fields _ _ _).2.2.2.2.1, hrStage_skip h, (pushPre_hr_fields _ _ _ _).1]
  · simp only [pushSample]
    rw [(ibiStage_fields _ _ _).2.2.2.2.2, hrStage_skip h, (pushPre_hr_fields _ _ _ _).2.1]

/-- Witness for C6 at the concrete stale-field state. -/
theorem C6_skip_keeps_fields_witness :
    (¬ (((getLatestSegment (pushPre stS 1 128 30).bvp (pushPre stS 1 128 30).t 12).1.length : ℚ)
      > (getLatestSegment (pushPre stS 1 128 30).bvp (pushPre stS 1 128 30).t 12).2 * 4)) ∧
    ((pushSample stS 1 128 30).hrBpm = stS.hrBpm ∧ (pushSample stS 1 128 30).snr = stS.snr) :=
  ⟨stS_skip, C6_skip_keeps_fields stS 1 128 30 stS_skip⟩

lemma makeBiquadHP_hist (fs fc : ℚ) :
    (makeBiquadHP fs fc).x1 = 0 ∧ (makeBiquadHP fs fc).x2 = 0 ∧
    (makeBiquadHP fs fc).y1 = 0 ∧ (makeBiquadHP fs fc).y2 = 0 :=
  ⟨rfl, rfl, rfl, rfl⟩

lemma makeBiquadLP_hist (fs fc : ℚ) :
    (makeBiquadLP fs fc).x1 = 0 ∧ (makeBiquadLP fs fc).x2 = 0 ∧
    (makeBiquadLP fs fc).y1 = 0 ∧ (makeBiquadLP fs fc).y2 = 0 :=
  ⟨rfl, rfl, rfl, rfl⟩

lemma Biquad.step_of_zero_hist {f : Biquad} (h1 : f.x1 = 0) (h2 : f.x2 = 0)
    (h3 : f.y1 = 0) (h4 : f.y2 = 0) (x : ℝ) : (f.step x).1 = f.b0 * x := by
  simp [Biquad.step, h1, h2, h3, h4]

/-- A pipeline state whose high-pass stage carries a nonzero two-sample
input and output history from earlier ticks. -/
noncomputable def stC1 : St := { st0 with hp := ⟨1, 0, 0, 0, 0, 5, 6, 7, 8⟩ }

/-- Counterexample to claim C1: the per-tick re-derivation (lines 206–207)
replaces each stage by a freshly constructed biquad whose histories are
zero, so the nonzero history of the previous tick is cleared, not
preserved. -/
theorem C1_counterexample :
    stC1.hp.x1 = 5 ∧ stC1.hp.x2 = 6 ∧ stC1.hp.y1 = 7 ∧ stC1.hp.y2 = 8 ∧
    (tickFilters (tickClock stC1 7)).hp.x1 = 0 ∧
    (tickFilters (tickClock stC1 7)).hp.x2 = 0 ∧
    (tickFilters (tickClock stC1 7)).hp.y1 = 0 ∧
    (tickFilters (tickClock stC1 7)).hp.y2 = 0 :=
  ⟨rfl, rfl, rfl, rfl, rfl, rfl, rfl, rfl⟩

/-- Claim C1 amended: both stages are rebuilt every tick with coefficients
from that tick's sampling-rate estimate, but with freshly zeroed input and
output histories — two states that agree on the clock fields but carry
arbitrary different filter histories produce identical stages, and each
stage's first output after the rebuild is just `b0 * x`, independent of any
previous history. -/
theorem C1_filters_rebuilt_fresh (s₁ s₂ : St) (now : ℚ)
    (hf : s₁.fpsEMA = s₂.fpsEMA) (hl : s₁.lastTs = s₂.lastTs) :
    (tickFilters (tickClock s₁ now)).hp = (tickFilters (tickClock s₂ now)).hp ∧
    (tickFilters (tickClock s₁ now)).lp = (tickFilters (tickClock s₂ now)).lp ∧
    (tickFilters (tickClock s₁ now)).hp.x1 = 0 ∧
    (tickFilters (tickClock s₁ now)).hp.x2 = 0 ∧
    (tickFilters (tickClock s₁ now)).hp.y1 = 0 ∧
    (tickFilters (tickClock s₁ now)).hp.y2 = 0 ∧
    (tickFilters (tickClock s₁ now)).lp.x1 = 0 ∧
    (tickFilters (tickClock s₁ now)).lp.x2 = 0 ∧
    (tickFilters (tickClock s₁ now)).lp.y1 = 0 ∧
    (tickFilters (tickClock s₁ now)).lp.y2 = 0 ∧
    (∀ x : ℝ, ((tickFilters (tickClock s₁ now)).hp.step x).1
      = (tickFilters (tickClock s₁ now)).hp.b0 * x) ∧
    (∀ x : ℝ, ((tickFilters (tickClock s₁ now)).lp.step x).1
      = (tickFilters (tickClock s₁ now)).lp.b0 * x) := by
  have hfs : fsOf (tickClock s₁ now) = fsOf (tickClock s₂ now) := by
    simp [tickClock, fsOf, hf, hl]
  have hhp : (tickFilters (tickClock s₁ now)).hp = makeBiquadHP (fsOf (tickClock s₁ now)) 0.7 :=
    rfl
  have hlp : (tickFilters (tickClock s₁ now)).lp = makeBiquadLP (fsOf (tickClock s₁ now)) 3.0 :=
    rfl
  refine ⟨by rw [hhp, hfs]; rfl, by rw [hlp, hfs]; rfl, ?_, ?_, ?_, ?_, ?_, ?_, ?_, ?_, ?_, ?_⟩
  · exact (makeBiquadHP_hist _ _).1
  · exact (makeBiquadHP_hist _ _).2.1
  · exact (makeBiquadHP_hist _ _).2.2.1
  · exact (makeBiquadHP_hist _ _).2.2.2
  · exact (makeBiquadLP_hist _ _).1
  · exact (makeBiquadLP_hist _ _).2.1
  · exact (makeBiquadLP_hist _ _).2.2.1
  · exact (makeBiquadLP_hist _ _).2.2.2
  · intro x
    exact Biquad.step_of_zero_hist (makeBiquadHP_hist _ _).1 (makeBiquadHP_hist _ _).2.1
      (makeBiquadHP_hist _ _).2.2.1 (makeBiquadHP_hist _ _).2.2.2 x
  · intro x
    exact Biquad.step_of_zero_hist (makeBiquadLP_hist _ _).1 (makeBiquadLP_hist _ _).2.1
      (makeBiquadLP_hist _ _).2.2.1 (makeBiquadLP_hist _ _).2.2.2 x

/-- Witness for C1: the state with nonzero filter history and the initial
state agree on the clock fields, so the theorem applies to them. -/
theorem C1_filters_rebuilt_fresh_witness :
    stC1.fpsEMA = st0.fpsEMA ∧ stC1.lastTs = st0.lastTs ∧
    ((tickFilters (tickClock stC1 7)).hp = (tickFilters (tickClock st0 7)).hp ∧
      (tickFilters (tickClock stC1 7)).lp = (tickFilters (tickClock st0 7)).lp ∧
      (tickFilters (tickClock stC1 7)).hp.x1 = 0 ∧
      (tickFilters (tickClock stC1 7)).hp.x2 = 0 ∧
      (tickFilters (tickClock stC1 7)).hp.y1 = 0 ∧
      (tickFilters (tickClock stC1 7)).hp.y2 = 0 ∧
      (tickFilters (tickClock stC1 7)).lp.x1 = 0 ∧
      (tickFilters (tickClock stC1 7)).lp.x2 = 0 ∧
      (tickFilters (tickClock stC1 7)).lp.y1 = 0 ∧
      (tickFilters (tickClock stC1 7)).lp.y2 = 0 ∧
      (∀ x : ℝ, ((tickFilters (tickClock stC1 7)).hp.step x).1
        = (tickFilters (tickClock stC1 7)).hp.b0 * x) ∧
      (∀ x : ℝ, ((tickFilters (tickClock stC1 7)).lp.step x).1
        = (tickFilters (tickClock stC1 7)).lp.b0 * x)) :=
  ⟨rfl, rfl, C1_filters_rebuilt_fresh stC1 st0 7 rfl rfl⟩

/-- A state holding five filtered samples with a clear candidate peak at the
second-to-last position (t = 1.332 s), 0.332 s after an accepted peak at
t = 1 s. -/
noncomputable def stC5 : St :=
  { st0 with
      t := [1, 11/10, 6/5, 333/250, 7/5]
      gRaw := [0, 0, 0, 2, 0]
      bvp := [0, 0, 0, 2, 0]
      lastPeakT := 1 }

/-- The same state, but with the last accepted peak at t = 1.324 s, only
0.008 s before the candidate. -/
noncomputable def stC5gap : St := { stC5 with lastPeakT := 331/250 }

lemma stC5_thr : peakThreshold stC5 30 = 2/5 + 0.6 * Real.sqrt (4/5) := by
  simp only [peakThreshold, stC5, st0]
  norm_num [List.foldl_cons, List.foldl_nil]

lemma stC5_candidate : isCandidatePeak stC5 30 := by
  have hsd : Real.sqrt ((4 : ℝ)/5) < 1 := by
    rw [show (1 : ℝ) = Real.sqrt 1 by rw [Real.sqrt_one]]
    exact Real.sqrt_lt_sqrt (by norm_num) (by norm_num)
  refine ⟨?_, ?_, ?_⟩
  · rw [stC5_thr]
    have hb : stC5.bvp.getD (stC5.bvp.length - 2) 0 = 2 := by
      norm_num [stC5, st0, List.getD_cons_succ, List.getD_cons_zero]
    rw [hb]
    have hm := mul_lt_mul_of_pos_left hsd (by norm_num : (0 : ℝ) < 0.6)
    linarith
  · norm_num [stC5, st0, List.getD_cons_succ, List.getD_cons_zero]
  · norm_num [stC5, st0, List.getD_cons_succ, List.getD_cons_zero]

lemma stC5_hN : ¬ stC5.bvp.length < 5 := by
  norm_num [stC5, st0]

lemma stC5_hfree :
    stC5.lastPeakT < 0 ∨ stC5.t.getD (stC5.bvp.length - 2) 0 - stC5.lastPeakT > 0.33 :=
  Or.inr (by norm_num [stC5, st0, List.getD_cons_succ, List.getD_cons_zero])

lemma stC5gap_h0 : (0 : ℚ) ≤ stC5gap.lastPeakT := by
  norm_num [stC5gap, stC5, st0]

lemma stC5gap_hgap :
    stC5gap.t.getD (stC5gap.bvp.length - 2) 0 - stC5gap.lastPeakT ≤ 0.33 := by
  norm_num [stC5gap, stC5, st0, List.getD_cons_succ, List.getD_cons_zero]

/-- Counterexample to claim C5: a candidate peak only 0.332 s after the last
accepted peak (less than the claimed 0.333 s refractory period) is accepted:
an interval of 0.332 s is emitted and the last-peak timestamp is updated,
because the code compares against the literal 0.33, not 0.333. -/
theorem C5_counterexample :
    stC5.lastPeakT = 1 ∧
    detectPeakAndIBI stC5 30 = (some (83/250), 333/250) ∧
    (333/250 : ℚ) - 1 < 333/1000 := by
  refine ⟨rfl, ?_, by norm_num⟩
  simp only [detectPeakAndIBI]
  rw [if_neg stC5_hN, if_pos stC5_candidate, if_pos stC5_hfree,
    if_pos (by norm_num [stC5, st0] : stC5.lastPeakT > 0)]
  norm_num [stC5, st0, List.getD_cons_succ, List.getD_cons_zero]

/-- Claim C5 amended: the refractory comparison uses the literal 0.33 s
(strictly greater than), not 0.333 s. If at most 0.33 s has elapsed since
the last accepted peak (recorded timestamp ≥ 0), the tick yields no interval
and the last-peak timestamp is unchanged; when a candidate peak passes the
threshold test and either no prior peak exists (timestamp < 0) or strictly
more than 0.33 s has elapsed, the candidate's timestamp becomes the new
last-peak and an interval is emitted exactly when the previous last-peak
timestamp was positive. -/
theorem C5_refractory_rule (st : St) (fs : ℚ) :
    (0 ≤ st.lastPeakT → st.t.getD (st.bvp.length - 2) 0 - st.lastPeakT ≤ 0.33 →
      detectPeakAndIBI st fs = (none, st.lastPeakT)) ∧
    (¬ st.bvp.length < 5 → isCandidatePeak st fs →
      (st.lastPeakT < 0 ∨ st.t.getD (st.bvp.length - 2) 0 - st.lastPeakT > 0.33) →
      detectPeakAndIBI st fs =
        ((if st.lastPeakT > 0 then some (st.t.getD (st.bvp.length - 2) 0 - st.lastPeakT)
          else none), st.t.getD (st.bvp.length - 2) 0)) := by
  constructor
  · intro h0 hgap
    simp only [detectPeakAndIBI]
    by_cases hN : st.bvp.length < 5
    · rw [if_pos hN]
    · rw [if_neg hN]
      by_cases hcand : isCandidatePeak st fs
      · rw [if_pos hcand, if_neg ?hrefr]
        case hrefr =>
          rintro (h | h)
          · linarith
          · linarith
      · rw [if_neg hcand]
  · intro hN hcand hfree
    simp only [detectPeakAndIBI]
    rw [if_neg hN, if_pos hcand, if_pos hfree]

/-- Witness for C5: the refractory-blocked state (gap 0.008 s) is discarded
with no update, and the accepted state (gap 0.332 s) emits its interval. -/
theorem C5_refractory_rule_witness :
    (0 ≤ stC5gap.lastPeakT ∧
      stC5gap.t.getD (stC5gap.bvp.length - 2) 0 - stC5gap.lastPeakT ≤ 0.33 ∧
      detectPeakAndIBI stC5gap 30 = (none, stC5gap.lastPeakT)) ∧
    (¬ stC5.bvp.length < 5 ∧ isCandidatePeak stC5 30 ∧
      (stC5.lastPeakT < 0 ∨ stC5.t.getD (stC5.bvp.length - 2) 0 - stC5.lastPeakT > 0.33) ∧
      detectPeakAndIBI stC5 30 =
        ((if stC5.lastPeakT > 0 then some (stC5.t.getD (stC5.bvp.length - 2) 0 - stC5.lastPeakT)
          else none), stC5.t.getD (stC5.bvp.length - 2) 0)) :=
  ⟨⟨stC5gap_h0, stC5gap_hgap, (C5_refractory_rule stC5gap 30).1 stC5gap_h0 stC5gap_hgap⟩,
   ⟨stC5_hN, stC5_candidate, stC5_hfree,
    (C5_refractory_rule stC5 30).2 stC5_hN stC5_candidate stC5_hfree⟩⟩

end RPPG
